import Mathlib

/-!
# kubex: context switching and the alias store

A shallow embedding of `main.go` of kubex, a small Kubernetes context manager.

The Go program keeps the loaded kubeconfig in a process-wide variable, reads and
writes two files, reads the terminal and prints to standard output.  Here all of
this is one explicit `World` value that every operation takes and returns:

* Go maps are `GoMap`s: either the nil map or a table with unique keys;
* Go `error` values are `Option String` (`none` is `nil`, `some msg` carries the
  text that `%v` prints);
* the outcome of the system calls that can fail (`os.ReadFile`, `os.MkdirAll`,
  `os.WriteFile`, `clientcmd.WriteToFile`) is part of the world;
* the YAML library is a parameter (`YamlCodec`), since its code is not part of
  the program.
-/

namespace Kubex

/-! ## Go maps -/

/-- A Go value of type `map[string]V`: the nil map, or a reference to a table whose keys are
unique.  The order of the entries of the table stands for the (unspecified) iteration order. -/
inductive GoMap (V : Type) where
  | nil : GoMap V
  | ref (tbl : AList (fun _ : String => V)) : GoMap V

namespace GoMap

variable {V : Type}

/-- The result of `make(map[string]V)`: an empty, non-nil map. -/
def make : GoMap V := .ref ∅

/-- The entries of the map, in iteration order; the nil map has none. -/
def entries : GoMap V → List (Sigma (fun _ : String => V))
  | .nil => []
  | .ref tbl => tbl.entries

/-- The keys visited by `for k := range m`. -/
def keys : GoMap V → List String
  | .nil => []
  | .ref tbl => tbl.keys

/-- The two-valued read `v, exists := m[k]`: `some v` when `exists` is true.  Reading the nil
map is allowed and finds nothing. -/
def lookup (m : GoMap V) (k : String) : Option V :=
  match m with
  | .nil => none
  | .ref tbl => tbl.lookup k

/-- The assignment `m[k] = v`.  On the nil map Go panics ("assignment to entry in nil map"),
which is the result `none`. -/
def set (m : GoMap V) (k : String) (v : V) : Option (GoMap V) :=
  match m with
  | .nil => none
  | .ref tbl => some (.ref (tbl.insert k v))

/-- The builtin `delete(m, k)`; a no-op on the nil map and on a missing key. -/
def delete (m : GoMap V) (k : String) : GoMap V :=
  match m with
  | .nil => .nil
  | .ref tbl => .ref (tbl.erase k)

end GoMap

/-! ## Data model -/

/-- The kubeconfig value `api.Config` of client-go.  The program reads `Contexts` and
`CurrentContext`; the type of the context data (`*api.Context`) and all remaining fields are
parameters `κ` and `ρ`. -/
structure Config (κ ρ : Type) where
  Contexts : GoMap κ
  CurrentContext : String
  rest : ρ

/-- The Go struct `AliasConfig`. -/
structure AliasConfig where
  Aliases : GoMap String

/-- The YAML library as used by the program: `yaml.Marshal(config)` returns the bytes or an
error, `yaml.Unmarshal(data, &config)` updates the given value and returns an error or nil. -/
structure YamlCodec where
  Marshal : AliasConfig → Except String String
  Unmarshal : String → AliasConfig → AliasConfig × Option String

/-- What the file system holds at the path `aliasFile`. -/
inductive FileState where
  /-- No file: `os.Stat` reports that it does not exist. -/
  | absent
  /-- The file is not reported missing, but `os.ReadFile` fails with this error. -/
  | unreadable (err : String)
  /-- The file exists and `os.ReadFile` returns this content. -/
  | present (data : String)
deriving DecidableEq

/-- The state a command runs in. -/
structure World (κ ρ : Type) where
  /-- The process-wide variable `config`, loaded from the kubeconfig at startup. -/
  config : Config κ ρ
  /-- The file at `aliasFile`. -/
  aliasFile : FileState
  /-- The result `os.MkdirAll` gives for the directory of the alias file. -/
  mkdirErr : Option String
  /-- The result `os.WriteFile` gives for the alias file. -/
  writeErr : Option String
  /-- The contents written to the alias file by successful `os.WriteFile` calls, oldest first. -/
  aliasWrites : List String
  /-- The result `clientcmd.WriteToFile` gives for the kubeconfig. -/
  kubeWriteErr : Option String
  /-- The configurations written to `kubeconfigPath` by successful `clientcmd.WriteToFile`
  calls, oldest first. -/
  kubeWrites : List (Config κ ρ)
  /-- Standard input: the values that successive `fmt.Scanln(&response)` calls store. -/
  stdin : List String
  /-- Standard output: the strings printed so far, oldest first. -/
  stdout : List String

variable {κ ρ : Type}

/-- One call of `fmt.Printf` or `fmt.Println` with the text `s`. -/
def World.print (w : World κ ρ) (s : String) : World κ ρ :=
  { w with stdout := w.stdout ++ [s] }

/-- The calls `var response string; fmt.Scanln(&response)`: the next answer is consumed; at end of
input the variable keeps its zero value, the empty string. -/
def World.scanln (w : World κ ρ) : String × World κ ρ :=
  match w.stdin with
  | [] => ("", w)
  | response :: more => (response, { w with stdin := more })

/-- The call `clientcmd.WriteToFile(*config, kubeconfigPath)`. -/
def World.writeToFile (w : World κ ρ) : World κ ρ × Option String :=
  match w.kubeWriteErr with
  | some err => (w, some err)
  | none => ({ w with kubeWrites := w.kubeWrites ++ [w.config] }, none)

/-! ## The alias store -/

/-- Go `loadAliases`: the pair `(config, err)` it returns. -/
def loadAliases (Y : YamlCodec) (w : World κ ρ) : AliasConfig × Option String :=
  let config : AliasConfig := { Aliases := GoMap.make }
  match w.aliasFile with
  | .absent => (config, none)
  | .unreadable err => (config, some err)
  | .present data => Y.Unmarshal data config

/-- Go `saveAliases`: the world after the call and the error it returns. -/
def saveAliases (Y : YamlCodec) (config : AliasConfig) (w : World κ ρ) :
    World κ ρ × Option String :=
  match Y.Marshal config with
  | .error err => (w, some err)
  | .ok data =>
    match w.mkdirErr with
    | some err => (w, some err)
    | none =>
      match w.writeErr with
      | some err => (w, some err)
      | none =>
        ({ w with aliasFile := .present data, aliasWrites := w.aliasWrites ++ [data] }, none)

/-! ## Commands -/

/-- Go `listContexts`. -/
def listContexts (w : World κ ρ) : World κ ρ :=
  w.config.Contexts.keys.foldl
    (fun w context =>
      if context = w.config.CurrentContext then
        w.print ("- " ++ context ++ " (active)\n")
      else
        w.print ("- " ++ context ++ "\n"))
    (w.print "Available contexts:\n")

/-- Go `switchContext`. -/
def switchContext (Y : YamlCodec) (contextName : String) (w : World κ ρ) : World κ ρ :=
  match loadAliases Y w with
  | (_, some err) => w.print ("Error loading aliases: " ++ err ++ "\n")
  | (aliasConfig, none) =>
    let contextName :=
      match aliasConfig.Aliases.lookup contextName with
      | some resolvedContext => resolvedContext
      | none => contextName
    match w.config.Contexts.lookup contextName with
    | none => w.print ("Error: Context '" ++ contextName ++ "' not found.\n")
    | some _ =>
      let w := { w with config := { w.config with CurrentContext := contextName } }
      match w.writeToFile with
      | (w, some err) => w.print ("Error updating kubeconfig: " ++ err ++ "\n")
      | (w, none) => w.print ("Switched to context: " ++ contextName ++ "\n")

/-- Go `showCurrentContext`. -/
def showCurrentContext (w : World κ ρ) : World κ ρ :=
  w.print ("Current context: " ++ w.config.CurrentContext ++ "\n")

/-- The `Run` function of `aliasAddCmd`, with `args = [aliasName, context]`.  The result is
`none` when the process panics. -/
def aliasAddCmd (Y : YamlCodec) (aliasName context : String) (w : World κ ρ) :
    Option (World κ ρ) :=
  match loadAliases Y w with
  | (_, some err) => some (w.print ("Error loading aliases: " ++ err ++ "\n"))
  | (config, none) =>
    let store (w : World κ ρ) : Option (World κ ρ) :=
      match config.Aliases.set aliasName context with
      | none => none
      | some aliases =>
        match saveAliases Y { config with Aliases := aliases } w with
        | (w, some err) => some (w.print ("Error saving aliases: " ++ err ++ "\n"))
        | (w, none) => some (w.print ("Added alias: " ++ aliasName ++ " -> " ++ context ++ "\n"))
    match config.Aliases.lookup aliasName with
    | some _ =>
      let w := w.print ("Alias '" ++ aliasName ++ "' already exists. Overwrite? [y/N]: ")
      let (response, w) := w.scanln
      if response ≠ "y" ∧ response ≠ "Y" then
        some (w.print "Operation canceled.\n")
      else
        store w
    | none => store w

/-- The `Run` function of `aliasRemoveCmd`, with `args = [aliasName]`. -/
def aliasRemoveCmd (Y : YamlCodec) (aliasName : String) (w : World κ ρ) : World κ ρ :=
  match loadAliases Y w with
  | (_, some err) => w.print ("Error loading aliases: " ++ err ++ "\n")
  | (config, none) =>
    match config.Aliases.lookup aliasName with
    | none => w.print ("Error: Alias '" ++ aliasName ++ "' not found.\n")
    | some _ =>
      match saveAliases Y { config with Aliases := config.Aliases.delete aliasName } w with
      | (w, some err) => w.print ("Error saving aliases: " ++ err ++ "\n")
      | (w, none) => w.print ("Removed alias: " ++ aliasName ++ "\n")

/-! ## A reference codec

A codec for the block-style documents that the YAML library writes for an `AliasConfig`

    aliases:
        prod: production-cluster

and `aliases: {}` for the empty map.  Keys are written plain, in iteration order; on reading, a
key may also be double-quoted.  It instantiates the `YamlCodec` parameter at concrete inputs. -/

/-- The line written for one alias. -/
def renderEntry (e : Sigma (fun _ : String => String)) : String :=
  "    " ++ e.1 ++ ": " ++ e.2 ++ "\n"

/-- The document written for an `AliasConfig`. -/
def blockMarshal (config : AliasConfig) : Except String String :=
  match config.Aliases.entries with
  | [] => .ok "aliases: {}\n"
  | es => .ok ("aliases:\n" ++ String.join (es.map renderEntry))

/-- The lines of a document. -/
def splitLines : List Char → List (List Char)
  | [] => []
  | c :: cs =>
    if c = '\n' then [] :: splitLines cs
    else
      match splitLines cs with
      | [] => [[c]]
      | l :: ls => (c :: l) :: ls

/-- Splits `key: value` at the first colon followed by a space. -/
def splitKeyValue : List Char → Option (List Char × List Char)
  | [] => none
  | c :: cs =>
    match c, cs with
    | ':', ' ' :: v => some ([], v)
    | _, _ => (splitKeyValue cs).map (fun kv => (c :: kv.1, kv.2))

/-- Splits a double-quoted key (the opening quote already read) from its value: the key ends
at the closing quote, which a colon and a space must follow. -/
def splitQuoted : List Char → Option (List Char × List Char)
  | [] => none
  | c :: cs =>
    match c, cs with
    | '"', ':' :: ' ' :: v => some ([], v)
    | '"', _ => none
    | _, _ => (splitQuoted cs).map (fun kv => (c :: kv.1, kv.2))

/-- Splits an entry line into key and value; the flag tells whether the key is plain (not
quoted). -/
def splitEntry : List Char → Option (Bool × List Char × List Char)
  | '"' :: quoted => (splitQuoted quoted).map (fun kv => (false, kv))
  | line => (splitKeyValue line).map (fun kv => (true, kv))

/-- Reads the indented `key: value` lines into the table.  A plain key `<<` is the YAML merge
key, whose value has to be a mapping, so with a scalar value decoding fails; a quoted `"<<"` is
an ordinary key.  A malformed line or a repeated key is an error too. -/
def readEntries : List (List Char) → AList (fun _ : String => String) →
    Except String (AList (fun _ : String => String))
  | [], tbl => .ok tbl
  | (' ' :: ' ' :: ' ' :: ' ' :: line) :: ls, tbl =>
    match splitEntry line with
    | none => .error "yaml: unmarshal errors"
    | some (plain, k, v) =>
      if plain = true ∧ k = ['<', '<'] then
        .error "yaml: map merge requires map or sequence of maps as the value"
      else
        match readEntries ls tbl with
        | .error err => .error err
        | .ok tbl' =>
          match tbl'.lookup (String.mk k) with
          | some _ => .error "yaml: unmarshal errors"
          | none => .ok (tbl'.insert (String.mk k) (String.mk v))
  | _ :: _, _ => .error "yaml: unmarshal errors"

/-- Decodes a document into the given `AliasConfig`. -/
def blockUnmarshal (data : String) (config : AliasConfig) : AliasConfig × Option String :=
  match splitLines data.data with
  | [] => (config, none)
  | first :: ls =>
    if first = "aliases: {}".data ∧ ls = [] then
      match config.Aliases with
      | .nil => ({ config with Aliases := GoMap.make }, none)
      | .ref _ => (config, none)
    else if first = "aliases:".data then
      match ls with
      | [] => ({ config with Aliases := .nil }, none)
      | _ =>
        let base : AList (fun _ : String => String) :=
          match config.Aliases with
          | .nil => ∅
          | .ref tbl => tbl
        match readEntries ls base with
        | .error err => (config, some err)
        | .ok tbl => ({ config with Aliases := .ref tbl }, none)
    else
      (config, some "yaml: unmarshal errors")

/-- The reference codec. -/
def blockYaml : YamlCodec where
  Marshal := blockMarshal
  Unmarshal := blockUnmarshal

/-! ## Predicates used in the statements -/

/-- The codec round-trips `config`: marshalling succeeds, and decoding the bytes into a fresh
`AliasConfig` (as `loadAliases` does) succeeds with the same entries up to their order. -/
def YamlCodec.RoundTripsOn (Y : YamlCodec) (config : AliasConfig) : Prop :=
  ∃ data config', Y.Marshal config = .ok data ∧
    Y.Unmarshal data { Aliases := GoMap.make } = (config', none) ∧
    config'.Aliases.entries.Perm config.Aliases.entries

/-- The data-model invariant of the context configuration: `CurrentContext` is empty or a key
of `Contexts`. -/
def Config.CurrentValid (c : Config κ ρ) : Prop :=
  c.CurrentContext = "" ∨ (c.Contexts.lookup c.CurrentContext).isSome

/-! ## Concrete states -/

/-- A kubeconfig with the contexts `dev`, `prod` and `staging`. -/
def sampleConfig (current : String) : Config Unit Unit where
  Contexts := .ref ((((∅ : AList (fun _ : String => Unit)).insert "staging" ()).insert "prod" ()).insert
    "dev" ())
  CurrentContext := current
  rest := ()

/-- A state with the sample kubeconfig in which every write succeeds. -/
def sampleWorld (aliasFile : FileState) (current : String) (stdin : List String) :
    World Unit Unit where
  config := sampleConfig current
  aliasFile := aliasFile
  mkdirErr := none
  writeErr := none
  aliasWrites := []
  kubeWriteErr := none
  kubeWrites := []
  stdin := stdin
  stdout := []

/-! # Theorems

## Basic facts -/

section Basics

variable {V : Type}

theorem GoMap.lookup_eq_dlookup (m : GoMap V) (k : String) :
    m.lookup k = List.dlookup k m.entries := by
  cases m <;> rfl

theorem GoMap.nodupKeys_entries (m : GoMap V) : m.entries.NodupKeys := by
  cases m with
  | nil => exact List.nodupKeys_nil
  | ref tbl => exact tbl.nodupKeys

theorem GoMap.lookup_congr {m₁ m₂ : GoMap V} (h : m₁.entries.Perm m₂.entries) (k : String) :
    m₁.lookup k = m₂.lookup k := by
  rw [GoMap.lookup_eq_dlookup, GoMap.lookup_eq_dlookup]
  exact List.perm_dlookup k m₁.nodupKeys_entries m₂.nodupKeys_entries h

theorem GoMap.keys_nodup (m : GoMap V) : m.keys.Nodup := by
  cases m with
  | nil => exact List.nodup_nil
  | ref tbl => exact tbl.keys_nodup

theorem GoMap.mem_keys_iff (m : GoMap V) (k : String) : k ∈ m.keys ↔ (m.lookup k).isSome := by
  cases m with
  | nil => simp [GoMap.keys, GoMap.lookup]
  | ref tbl =>
    simp only [GoMap.keys, GoMap.lookup]
    rw [AList.lookup_isSome, AList.mem_keys]

theorem GoMap.lookup_delete_self (m : GoMap V) (k : String) : (m.delete k).lookup k = none := by
  cases m with
  | nil => rfl
  | ref tbl => exact AList.lookup_erase k tbl

theorem GoMap.lookup_delete_ne (m : GoMap V) {k k' : String} (h : k ≠ k') :
    (m.delete k').lookup k = m.lookup k := by
  cases m with
  | nil => rfl
  | ref tbl => exact AList.lookup_erase_ne h

theorem GoMap.lookup_of_set {m m' : GoMap V} {k : String} {v : V} (h : m.set k v = some m') :
    m'.lookup k = some v := by
  cases m with
  | nil => simp [GoMap.set] at h
  | ref tbl =>
    simp only [GoMap.set, Option.some.injEq] at h
    subst h
    exact AList.lookup_insert tbl

end Basics

/-- What `switchContext` does once the aliases are loaded, by the outcome of the validation
and of the write. -/
theorem switchContext_of_load (Y : YamlCodec) (w : World κ ρ) (x : String)
    (aliasConfig : AliasConfig) (hload : loadAliases Y w = (aliasConfig, none)) :
    switchContext Y x w =
      match w.config.Contexts.lookup ((aliasConfig.Aliases.lookup x).getD x) with
      | none =>
        w.print ("Error: Context '" ++ (aliasConfig.Aliases.lookup x).getD x ++ "' not found.\n")
      | some _ =>
        match w.kubeWriteErr with
        | some err =>
          { w with
            config := { w.config with CurrentContext := (aliasConfig.Aliases.lookup x).getD x },
            stdout := w.stdout ++ ["Error updating kubeconfig: " ++ err ++ "\n"] }
        | none =>
          { w with
            config := { w.config with CurrentContext := (aliasConfig.Aliases.lookup x).getD x },
            kubeWrites := w.kubeWrites ++
              [{ w.config with CurrentContext := (aliasConfig.Aliases.lookup x).getD x }],
            stdout := w.stdout ++
              ["Switched to context: " ++ (aliasConfig.Aliases.lookup x).getD x ++ "\n"] } := by
  have hname : (match aliasConfig.Aliases.lookup x with
      | some resolvedContext => resolvedContext
      | none => x) = (aliasConfig.Aliases.lookup x).getD x := by
    cases aliasConfig.Aliases.lookup x <;> rfl
  simp only [switchContext, hload, hname]
  cases hctx : w.config.Contexts.lookup ((aliasConfig.Aliases.lookup x).getD x) with
  | none => rfl
  | some _ =>
    cases hk : w.kubeWriteErr with
    | none => simp [World.writeToFile, World.print, hk]
    | some err => simp [World.writeToFile, World.print, hk]

theorem switchContext_of_load_error (Y : YamlCodec) (w : World κ ρ) (x : String)
    (aliasConfig : AliasConfig) (err : String) (hload : loadAliases Y w = (aliasConfig, some err)) :
    switchContext Y x w = w.print ("Error loading aliases: " ++ err ++ "\n") := by
  simp only [switchContext, hload]

/-! ## Switching contexts -/

/-- C1 (counterexample): `dev` is a key of the contexts mapping and the kubeconfig write
succeeds, but the alias file maps the name `dev` to `prod`; `switchContext "dev"` followed by
`showCurrentContext` then reports `prod`, not `dev`. -/
theorem switchContext_shadowed_context :
    (loadAliases blockYaml (sampleWorld (.present "aliases:\n    dev: prod\n") "staging" [])).2
        = none ∧
      ((sampleWorld (.present "aliases:\n    dev: prod\n") "staging"
        []).config.Contexts.lookup "dev").isSome ∧
      (switchContext blockYaml "dev"
        (sampleWorld (.present "aliases:\n    dev: prod\n") "staging" [])).kubeWrites
        = [sampleConfig "prod"] ∧
      (switchContext blockYaml "dev"
        (sampleWorld (.present "aliases:\n    dev: prod\n") "staging" [])).config.CurrentContext
        ≠ "dev" ∧
      (showCurrentContext (switchContext blockYaml "dev"
        (sampleWorld (.present "aliases:\n    dev: prod\n") "staging" []))).stdout
        = ["Switched to context: prod\n", "Current context: prod\n"] := by
  refine ⟨by decide, by decide, by rfl, by decide, by decide⟩

/-- C1 (amended): for every configuration, every loaded alias map and every name `c` that is a
key of the contexts mapping and is not redirected by the alias map (`c` is not an alias, or is
an alias of itself), `switchContext c` with the kubeconfig write succeeding sets
`CurrentContext` to `c`, writes that configuration, and `showCurrentContext` then reports `c`. -/
theorem switchContext_then_showCurrentContext (Y : YamlCodec) (w : World κ ρ) (c : String)
    (aliasConfig : AliasConfig) (hload : loadAliases Y w = (aliasConfig, none))
    (hkey : (w.config.Contexts.lookup c).isSome)
    (hplain : aliasConfig.Aliases.lookup c = none ∨ aliasConfig.Aliases.lookup c = some c)
    (hwrite : w.kubeWriteErr = none) :
    (switchContext Y c w).config.CurrentContext = c ∧
      (switchContext Y c w).kubeWrites = w.kubeWrites ++ [{ w.config with CurrentContext := c }] ∧
      (showCurrentContext (switchContext Y c w)).stdout =
        w.stdout ++ ["Switched to context: " ++ c ++ "\n", "Current context: " ++ c ++ "\n"] := by
  have hname : (aliasConfig.Aliases.lookup c).getD c = c := by
    rcases hplain with h | h <;> simp [h]
  obtain ⟨v, hv⟩ := Option.isSome_iff_exists.mp hkey
  rw [switchContext_of_load Y w c aliasConfig hload]
  simp [hname, hv, hwrite, showCurrentContext, World.print]

/-- C1 (amended) at a concrete state: the alias file maps `p` to `prod`, and `prod` itself is
switched to. -/
theorem switchContext_then_showCurrentContext_witness :
    (switchContext blockYaml "prod"
        (sampleWorld (.present "aliases:\n    p: prod\n") "dev" [])).config.CurrentContext
        = "prod" ∧
      (switchContext blockYaml "prod"
        (sampleWorld (.present "aliases:\n    p: prod\n") "dev" [])).kubeWrites =
        (sampleWorld (.present "aliases:\n    p: prod\n") "dev" []).kubeWrites ++
          [{ (sampleWorld (.present "aliases:\n    p: prod\n") "dev" []).config with
            CurrentContext := "prod" }] ∧
      (showCurrentContext (switchContext blockYaml "prod"
        (sampleWorld (.present "aliases:\n    p: prod\n") "dev" []))).stdout =
        (sampleWorld (.present "aliases:\n    p: prod\n") "dev" []).stdout ++
          ["Switched to context: " ++ "prod" ++ "\n", "Current context: " ++ "prod" ++ "\n"] :=
  switchContext_then_showCurrentContext blockYaml
    (sampleWorld (.present "aliases:\n    p: prod\n") "dev" []) "prod"
    (loadAliases blockYaml (sampleWorld (.present "aliases:\n    p: prod\n") "dev" [])).1
    rfl (by decide) (Or.inl (by decide)) rfl

/-- C2 (counterexample): the alias file maps `p` to `prod` and `prod` to `staging`, and `prod`
is a key of the contexts mapping; `switchContext "p"` makes `prod` current while
`switchContext "prod"` makes `staging` current, and the printed lines differ. -/
theorem switchContext_alias_of_alias :
    (loadAliases blockYaml
        (sampleWorld (.present "aliases:\n    p: prod\n    prod: staging\n") "dev"
          [])).1.Aliases.lookup "p" = some "prod" ∧
      ((sampleWorld (.present "aliases:\n    p: prod\n    prod: staging\n") "dev"
        []).config.Contexts.lookup "prod").isSome ∧
      (switchContext blockYaml "p"
        (sampleWorld (.present "aliases:\n    p: prod\n    prod: staging\n") "dev"
          [])).config.CurrentContext = "prod" ∧
      (switchContext blockYaml "prod"
        (sampleWorld (.present "aliases:\n    p: prod\n    prod: staging\n") "dev"
          [])).config.CurrentContext = "staging" ∧
      (switchContext blockYaml "p"
        (sampleWorld (.present "aliases:\n    p: prod\n    prod: staging\n") "dev" [])).stdout
        = ["Switched to context: prod\n"] ∧
      (switchContext blockYaml "prod"
        (sampleWorld (.present "aliases:\n    p: prod\n    prod: staging\n") "dev" [])).stdout
        = ["Switched to context: staging\n"] := by
  refine ⟨by decide, by decide, by decide, by decide, by decide, by decide⟩

/-- C2 (amended): for every loaded alias map containing `a -> c`, where `c` is a key of the
contexts mapping and is not itself redirected by the alias map (`c` is not an alias, or is an
alias of itself), and for every starting state, `switchContext a` and `switchContext c` end in
the same state (same configuration, same kubeconfig writes, same printed output), in which
`c` is the current context. -/
theorem switchContext_alias_eq_target (Y : YamlCodec) (w : World κ ρ) (a c : String)
    (aliasConfig : AliasConfig) (hload : loadAliases Y w = (aliasConfig, none))
    (halias : aliasConfig.Aliases.lookup a = some c)
    (hkey : (w.config.Contexts.lookup c).isSome)
    (hplain : aliasConfig.Aliases.lookup c = none ∨ aliasConfig.Aliases.lookup c = some c) :
    switchContext Y a w = switchContext Y c w ∧
      (switchContext Y a w).config.CurrentContext = c := by
  have hname : (aliasConfig.Aliases.lookup c).getD c = c := by
    rcases hplain with h | h <;> simp [h]
  obtain ⟨v, hv⟩ := Option.isSome_iff_exists.mp hkey
  rw [switchContext_of_load Y w a aliasConfig hload, switchContext_of_load Y w c aliasConfig hload,
    hname, halias, Option.getD_some, hv]
  refine ⟨rfl, ?_⟩
  cases w.kubeWriteErr <;> rfl

/-- C2 (amended) at a concrete state: switching to the alias `p` and to its target `prod`. -/
theorem switchContext_alias_eq_target_witness :
    switchContext blockYaml "p" (sampleWorld (.present "aliases:\n    p: prod\n") "dev" []) =
        switchContext blockYaml "prod" (sampleWorld (.present "aliases:\n    p: prod\n") "dev" []) ∧
      (switchContext blockYaml "p"
        (sampleWorld (.present "aliases:\n    p: prod\n") "dev" [])).config.CurrentContext
        = "prod" :=
  switchContext_alias_eq_target blockYaml
    (sampleWorld (.present "aliases:\n    p: prod\n") "dev" []) "p" "prod"
    (loadAliases blockYaml (sampleWorld (.present "aliases:\n    p: prod\n") "dev" [])).1
    rfl (by decide) (by decide) (Or.inl (by decide))

/-- C3: for every state, every loaded alias map and every name `x` that is neither a key of the
contexts mapping nor a key of the alias map, `switchContext x` only prints
`Error: Context 'x' not found.`: `CurrentContext` and the whole configuration are unchanged and
the kubeconfig is not written. -/
theorem switchContext_unknown_name (Y : YamlCodec) (w : World κ ρ) (x : String)
    (aliasConfig : AliasConfig) (hload : loadAliases Y w = (aliasConfig, none))
    (hctx : w.config.Contexts.lookup x = none) (halias : aliasConfig.Aliases.lookup x = none) :
    switchContext Y x w = w.print ("Error: Context '" ++ x ++ "' not found.\n") ∧
      (switchContext Y x w).config.CurrentContext = w.config.CurrentContext ∧
      (switchContext Y x w).config = w.config ∧
      (switchContext Y x w).kubeWrites = w.kubeWrites ∧
      (switchContext Y x w).stdout = w.stdout ++ ["Error: Context '" ++ x ++ "' not found.\n"] := by
  have h : switchContext Y x w = w.print ("Error: Context '" ++ x ++ "' not found.\n") := by
    rw [switchContext_of_load Y w x aliasConfig hload]
    simp [halias, hctx]
  rw [h]
  exact ⟨rfl, rfl, rfl, rfl, rfl⟩

/-- C3 at a concrete state: `qa` is neither a context nor an alias. -/
theorem switchContext_unknown_name_witness :
    switchContext blockYaml "qa" (sampleWorld (.present "aliases:\n    p: prod\n") "dev" []) =
      (sampleWorld (.present "aliases:\n    p: prod\n") "dev" []).print
        ("Error: Context '" ++ "qa" ++ "' not found.\n") :=
  (switchContext_unknown_name blockYaml
    (sampleWorld (.present "aliases:\n    p: prod\n") "dev" []) "qa"
    (loadAliases blockYaml (sampleWorld (.present "aliases:\n    p: prod\n") "dev" [])).1
    rfl (by decide) (by decide)).1

/-- C9: for every state, alias file and argument, `switchContext` leaves the contexts mapping
and every other field of the configuration except `CurrentContext` as they were, does not touch
the alias file, and writes the kubeconfig at most once; when the aliases load, it writes the
kubeconfig exactly once (the configuration with the new `CurrentContext`) if the resolved name
is a key of the contexts mapping and the write succeeds, and writes nothing and changes nothing
in the configuration if the resolved name is not a key. -/
theorem switchContext_frame (Y : YamlCodec) (w : World κ ρ) (x : String) :
    (switchContext Y x w).config.Contexts = w.config.Contexts ∧
      (switchContext Y x w).config.rest = w.config.rest ∧
      (switchContext Y x w).aliasFile = w.aliasFile ∧
      (switchContext Y x w).aliasWrites = w.aliasWrites ∧
      ((switchContext Y x w).kubeWrites = w.kubeWrites ∨
        (switchContext Y x w).kubeWrites = w.kubeWrites ++ [(switchContext Y x w).config]) ∧
      ∀ aliasConfig, loadAliases Y w = (aliasConfig, none) →
        ((w.config.Contexts.lookup ((aliasConfig.Aliases.lookup x).getD x)).isSome →
          w.kubeWriteErr = none →
          (switchContext Y x w).kubeWrites = w.kubeWrites ++
              [{ w.config with CurrentContext := (aliasConfig.Aliases.lookup x).getD x }] ∧
            (switchContext Y x w).stdout = w.stdout ++
              ["Switched to context: " ++ (aliasConfig.Aliases.lookup x).getD x ++ "\n"]) ∧
        (w.config.Contexts.lookup ((aliasConfig.Aliases.lookup x).getD x) = none →
          (switchContext Y x w).kubeWrites = w.kubeWrites ∧
            (switchContext Y x w).config = w.config) := by
  rcases hload : loadAliases Y w with ⟨aliasConfig, _ | err⟩
  · rw [switchContext_of_load Y w x aliasConfig hload]
    cases hctx : w.config.Contexts.lookup ((aliasConfig.Aliases.lookup x).getD x) with
    | none =>
      refine ⟨rfl, rfl, rfl, rfl, Or.inl rfl, ?_⟩
      intro aliasConfig' h
      obtain rfl : aliasConfig = aliasConfig' := congrArg Prod.fst h
      simp [hctx, World.print]
    | some v =>
      cases hk : w.kubeWriteErr with
      | none =>
        refine ⟨rfl, rfl, rfl, rfl, Or.inr rfl, ?_⟩
        intro aliasConfig' h
        obtain rfl : aliasConfig = aliasConfig' := congrArg Prod.fst h
        simp [hctx]
      | some err =>
        refine ⟨rfl, rfl, rfl, rfl, Or.inl rfl, ?_⟩
        intro aliasConfig' h
        obtain rfl : aliasConfig = aliasConfig' := congrArg Prod.fst h
        simp [hctx]
  · rw [switchContext_of_load_error Y w x aliasConfig err hload]
    refine ⟨rfl, rfl, rfl, rfl, Or.inl rfl, ?_⟩
    intro aliasConfig' h
    simp at h

/-- C9 at a concrete state: one write for the alias `p`, none for the unknown name `qa`. -/
theorem switchContext_frame_witness :
    ((switchContext blockYaml "p"
        (sampleWorld (.present "aliases:\n    p: prod\n") "dev" [])).kubeWrites =
        (sampleWorld (.present "aliases:\n    p: prod\n") "dev" []).kubeWrites ++
          [{ (sampleWorld (.present "aliases:\n    p: prod\n") "dev" []).config with
            CurrentContext := "prod" }] ∧
      (switchContext blockYaml "p"
        (sampleWorld (.present "aliases:\n    p: prod\n") "dev" [])).stdout =
        (sampleWorld (.present "aliases:\n    p: prod\n") "dev" []).stdout ++
          ["Switched to context: " ++ "prod" ++ "\n"]) ∧
      ((switchContext blockYaml "qa"
        (sampleWorld (.present "aliases:\n    p: prod\n") "dev" [])).kubeWrites =
        (sampleWorld (.present "aliases:\n    p: prod\n") "dev" []).kubeWrites ∧
      (switchContext blockYaml "qa"
        (sampleWorld (.present "aliases:\n    p: prod\n") "dev" [])).config =
        (sampleWorld (.present "aliases:\n    p: prod\n") "dev" []).config) :=
  ⟨((switchContext_frame blockYaml
      (sampleWorld (.present "aliases:\n    p: prod\n") "dev" []) "p").2.2.2.2.2
      (loadAliases blockYaml (sampleWorld (.present "aliases:\n    p: prod\n") "dev" [])).1
      rfl).1 (by decide) rfl,
    ((switchContext_frame blockYaml
      (sampleWorld (.present "aliases:\n    p: prod\n") "dev" []) "qa").2.2.2.2.2
      (loadAliases blockYaml (sampleWorld (.present "aliases:\n    p: prod\n") "dev" [])).1
      rfl).2 (by decide)⟩

/-- C10: `switchContext` preserves the predicate "`CurrentContext` is empty or a key of the
contexts mapping" in every state, for every alias file and argument, whatever the outcome
(success, context not found, aliases not loadable, kubeconfig not writable); and whenever the
aliases load and the resolved name is a key of the contexts mapping, `CurrentContext` is a key
of the contexts mapping afterwards, whatever it was before. -/
theorem switchContext_currentValid (Y : YamlCodec) (w : World κ ρ) (x : String) :
    (w.config.CurrentValid → (switchContext Y x w).config.CurrentValid) ∧
      ∀ aliasConfig, loadAliases Y w = (aliasConfig, none) →
        (w.config.Contexts.lookup ((aliasConfig.Aliases.lookup x).getD x)).isSome →
        ((switchContext Y x w).config.Contexts.lookup
          (switchContext Y x w).config.CurrentContext).isSome := by
  rcases hload : loadAliases Y w with ⟨aliasConfig, _ | err⟩
  · rw [switchContext_of_load Y w x aliasConfig hload]
    cases hctx : w.config.Contexts.lookup ((aliasConfig.Aliases.lookup x).getD x) with
    | none =>
      refine ⟨fun h => h, ?_⟩
      intro aliasConfig' h
      obtain rfl : aliasConfig = aliasConfig' := congrArg Prod.fst h
      simp [hctx]
    | some v =>
      have hv : ∀ c : Config κ ρ, c.Contexts = w.config.Contexts →
          c.CurrentContext = (aliasConfig.Aliases.lookup x).getD x →
          (c.Contexts.lookup c.CurrentContext).isSome := by
        intro c h₁ h₂
        rw [h₁, h₂, hctx]
        rfl
      cases hk : w.kubeWriteErr with
      | none =>
        refine ⟨fun _ => Or.inr (hv _ rfl rfl), ?_⟩
        intro aliasConfig' h _
        obtain rfl : aliasConfig = aliasConfig' := congrArg Prod.fst h
        exact hv _ rfl rfl
      | some err =>
        refine ⟨fun _ => Or.inr (hv _ rfl rfl), ?_⟩
        intro aliasConfig' h _
        obtain rfl : aliasConfig = aliasConfig' := congrArg Prod.fst h
        exact hv _ rfl rfl
  · rw [switchContext_of_load_error Y w x aliasConfig err hload]
    refine ⟨fun h => h, ?_⟩
    intro aliasConfig' h
    simp at h

/-- C10 at concrete states: from a valid current context, and from the dangling current
context `gone`. -/
theorem switchContext_currentValid_witness :
    (switchContext blockYaml "p"
        (sampleWorld (.present "aliases:\n    p: prod\n") "dev" [])).config.CurrentValid ∧
      ((switchContext blockYaml "p"
        (sampleWorld (.present "aliases:\n    p: prod\n") "gone" [])).config.Contexts.lookup
          (switchContext blockYaml "p"
            (sampleWorld (.present "aliases:\n    p: prod\n") "gone"
              [])).config.CurrentContext).isSome :=
  ⟨(switchContext_currentValid blockYaml
      (sampleWorld (.present "aliases:\n    p: prod\n") "dev" []) "p").1 (Or.inr (by decide)),
    (switchContext_currentValid blockYaml
      (sampleWorld (.present "aliases:\n    p: prod\n") "gone" []) "p").2
      (loadAliases blockYaml (sampleWorld (.present "aliases:\n    p: prod\n") "gone" [])).1
      rfl (by decide)⟩

/-! ## Listing contexts -/

theorem listContexts_foldl (current : String) (ks : List String) (w : World κ ρ)
    (hcur : w.config.CurrentContext = current) :
    ks.foldl
        (fun (w : World κ ρ) context =>
          if context = w.config.CurrentContext then
            w.print ("- " ++ context ++ " (active)\n")
          else
            w.print ("- " ++ context ++ "\n"))
        w =
      { w with
        stdout := w.stdout ++ ks.map (fun context =>
          if context = current then "- " ++ context ++ " (active)\n"
          else "- " ++ context ++ "\n") } := by
  induction ks generalizing w with
  | nil => simp
  | cons k ks ih =>
    rw [List.foldl_cons]
    by_cases hk : k = current
    · rw [if_pos (hk.trans hcur.symm), ih (w.print ("- " ++ k ++ " (active)\n")) hcur]
      simp [World.print, hk]
    · rw [if_neg (fun h => hk (h.trans hcur)), ih (w.print ("- " ++ k ++ "\n")) hcur]
      simp [World.print, hk]

/-- C8 (counterexample): with the contexts `dev`, `prod`, `staging` and an empty
`CurrentContext`, `listContexts` prints the three names and marks none of them active. -/
theorem listContexts_none_active :
    (listContexts (sampleWorld .absent "" [])).stdout =
        ["Available contexts:\n", "- dev\n", "- prod\n", "- staging\n"] ∧
      (sampleWorld .absent "" []).config.Contexts.keys.count
        (sampleWorld .absent "" []).config.CurrentContext = 0 := by
  refine ⟨by decide, by decide⟩

/-- C8 (amended): for every state, `listContexts` changes nothing but standard output, to which
it appends the header and then one line per key of the contexts mapping, each key exactly once;
the line of a key is the `(active)` line if and only if the key equals `CurrentContext`, so at
most one line is marked active: exactly one when `CurrentContext` is a key of the contexts
mapping and none otherwise. -/
theorem listContexts_spec (w : World κ ρ) :
    listContexts w =
        { w with
          stdout := w.stdout ++ "Available contexts:\n" ::
            w.config.Contexts.keys.map (fun context =>
              if context = w.config.CurrentContext then "- " ++ context ++ " (active)\n"
              else "- " ++ context ++ "\n") } ∧
      (listContexts w).config = w.config ∧
      w.config.Contexts.keys.Nodup ∧
      (∀ k, k ∈ w.config.Contexts.keys ↔ (w.config.Contexts.lookup k).isSome) ∧
      w.config.Contexts.keys.count w.config.CurrentContext =
        if (w.config.Contexts.lookup w.config.CurrentContext).isSome then 1 else 0 := by
  have h : listContexts w =
      { w with
        stdout := w.stdout ++ "Available contexts:\n" ::
          w.config.Contexts.keys.map (fun context =>
            if context = w.config.CurrentContext then "- " ++ context ++ " (active)\n"
            else "- " ++ context ++ "\n") } := by
    unfold listContexts
    rw [listContexts_foldl w.config.CurrentContext w.config.Contexts.keys
      (w.print "Available contexts:\n") rfl]
    simp [World.print]
  refine ⟨h, by rw [h], GoMap.keys_nodup _, GoMap.mem_keys_iff _, ?_⟩
  by_cases hc : (w.config.Contexts.lookup w.config.CurrentContext).isSome
  · rw [if_pos hc]
    exact List.count_eq_one_of_mem (GoMap.keys_nodup _) ((GoMap.mem_keys_iff _ _).mpr hc)
  · rw [if_neg hc]
    exact List.count_eq_zero_of_not_mem (fun hm => hc ((GoMap.mem_keys_iff _ _).mp hm))

/-! ## The alias store -/

theorem saveAliases_ok (Y : YamlCodec) (config : AliasConfig) (w : World κ ρ) (data : String)
    (hmarshal : Y.Marshal config = .ok data) (hmkdir : w.mkdirErr = none)
    (hwrite : w.writeErr = none) :
    saveAliases Y config w =
      ({ w with aliasFile := .present data, aliasWrites := w.aliasWrites ++ [data] }, none) := by
  simp only [saveAliases, hmarshal, hmkdir, hwrite]

theorem loadAliases_present (Y : YamlCodec) (w : World κ ρ) (data : String)
    (hfile : w.aliasFile = .present data) :
    loadAliases Y w = Y.Unmarshal data { Aliases := GoMap.make } := by
  simp only [loadAliases, hfile]

theorem loadAliases_congr (Y : YamlCodec) {w₁ w₂ : World κ ρ}
    (hfile : w₁.aliasFile = w₂.aliasFile) : loadAliases Y w₁ = loadAliases Y w₂ := by
  simp only [loadAliases, hfile]

/-- After a successful save of a configuration the codec round-trips, `loadAliases` succeeds
and reads the saved entries up to their order. -/
theorem loadAliases_saveAliases (Y : YamlCodec) (config : AliasConfig) (w : World κ ρ)
    (hrt : Y.RoundTripsOn config) (hmkdir : w.mkdirErr = none) (hwrite : w.writeErr = none) :
    ∃ data, Y.Marshal config = .ok data ∧
      saveAliases Y config w =
        ({ w with aliasFile := .present data, aliasWrites := w.aliasWrites ++ [data] }, none) ∧
      (loadAliases Y (saveAliases Y config w).1).2 = none ∧
      (loadAliases Y (saveAliases Y config w).1).1.Aliases.entries.Perm config.Aliases.entries := by
  obtain ⟨data, config', hm, hu, hp⟩ := hrt
  have hs := saveAliases_ok Y config w data hm hmkdir hwrite
  refine ⟨data, hm, hs, ?_, ?_⟩
  · rw [hs, loadAliases_present Y _ data rfl, hu]
  · rw [hs, loadAliases_present Y _ data rfl, hu]
    exact hp

/-- C4 (counterexample): with no alias file, `alias add << prod` loads, stores the entry, saves
and prints `Added alias: << -> prod`; the file then holds the plain key `<<`, the YAML merge
key, so the subsequent `loadAliases` fails and returns no entry for `<<`. -/
theorem aliasAdd_merge_key_unloadable :
    (loadAliases blockYaml (sampleWorld .absent "dev" [])).2 = none ∧
      (aliasAddCmd blockYaml "<<" "prod" (sampleWorld .absent "dev" [])).map (fun w => w.stdout) =
        some ["Added alias: << -> prod\n"] ∧
      (aliasAddCmd blockYaml "<<" "prod" (sampleWorld .absent "dev" [])).map
        (fun w => w.aliasFile) = some (.present "aliases:\n    <<: prod\n") ∧
      (aliasAddCmd blockYaml "<<" "prod" (sampleWorld .absent "dev" [])).map
        (fun w => (loadAliases blockYaml w).2.isSome) = some true ∧
      (aliasAddCmd blockYaml "<<" "prod" (sampleWorld .absent "dev" [])).map
        (fun w => (loadAliases blockYaml w).1.Aliases.lookup "<<") = some none := by
  refine ⟨by decide, by decide, by decide, by decide, by decide⟩

/-- C4 (amended): for every stored alias map (the map `loadAliases` returns without error), every
alias name and every context name for which the YAML library round-trips the map with the new
entry, when `alias add` gets to store the entry (the alias is new, or the overwrite is confirmed
with `y` or `Y`) and the save succeeds, the command completes and a subsequent `loadAliases`
succeeds with a map in which the alias maps to the context. -/
theorem aliasAdd_then_loadAliases (Y : YamlCodec) (w : World κ ρ) (a ctx : String)
    (config : AliasConfig) (aliases' : GoMap String)
    (hload : loadAliases Y w = (config, none))
    (hset : config.Aliases.set a ctx = some aliases')
    (hconfirm : config.Aliases.lookup a = none ∨ w.scanln.1 = "y" ∨ w.scanln.1 = "Y")
    (hmkdir : w.mkdirErr = none) (hwrite : w.writeErr = none)
    (hrt : Y.RoundTripsOn { config with Aliases := aliases' }) :
    ∃ w', aliasAddCmd Y a ctx w = some w' ∧
      (loadAliases Y w').2 = none ∧
      (loadAliases Y w').1.Aliases.lookup a = some ctx := by
  have key : ∀ w₁ : World κ ρ, w₁.mkdirErr = none → w₁.writeErr = none →
      ∃ w', (match saveAliases Y { config with Aliases := aliases' } w₁ with
          | (w, some err) => some (w.print ("Error saving aliases: " ++ err ++ "\n"))
          | (w, none) => some (w.print ("Added alias: " ++ a ++ " -> " ++ ctx ++ "\n"))) = some w' ∧
        (loadAliases Y w').2 = none ∧ (loadAliases Y w').1.Aliases.lookup a = some ctx := by
    intro w₁ h₁ h₂
    obtain ⟨data, _, hs, he, hp⟩ := loadAliases_saveAliases Y _ w₁ hrt h₁ h₂
    rw [hs] at he hp
    rw [hs]
    refine ⟨_, rfl, he, ?_⟩
    have := GoMap.lookup_congr hp a
    rw [GoMap.lookup_of_set hset] at this
    exact this
  unfold aliasAddCmd
  simp only [hload, hset]
  cases hl : config.Aliases.lookup a with
  | none => exact key w hmkdir hwrite
  | some target =>
    have hresp : w.scanln.1 = "y" ∨ w.scanln.1 = "Y" := by
      rcases hconfirm with h | h
      · rw [hl] at h; cases h
      · exact h
    have hscan : ∀ s, ((w.print s).scanln).1 = w.scanln.1 := by
      intro s
      simp only [World.scanln, World.print]
      cases w.stdin <;> rfl
    have hno : ¬ (((w.print ("Alias '" ++ a ++ "' already exists. Overwrite? [y/N]: ")).scanln).1
        ≠ "y" ∧ ((w.print ("Alias '" ++ a ++ "' already exists. Overwrite? [y/N]: ")).scanln).1
        ≠ "Y") := by
      rw [hscan]
      rcases hresp with h | h <;> simp [h]
    simp only [if_neg hno]
    apply key
    · simp only [World.scanln, World.print]
      cases w.stdin <;> exact hmkdir
    · simp only [World.scanln, World.print]
      cases w.stdin <;> exact hwrite

/-- C4 (amended) at a concrete state: the alias `p` is overwritten after the answer `y`. -/
theorem aliasAdd_then_loadAliases_witness :
    ∃ w', aliasAddCmd blockYaml "p" "staging"
        (sampleWorld (.present "aliases:\n    p: prod\n") "dev" ["y"]) = some w' ∧
      (loadAliases blockYaml w').2 = none ∧
      (loadAliases blockYaml w').1.Aliases.lookup "p" = some "staging" :=
  aliasAdd_then_loadAliases blockYaml
    (sampleWorld (.present "aliases:\n    p: prod\n") "dev" ["y"]) "p" "staging"
    (loadAliases blockYaml (sampleWorld (.present "aliases:\n    p: prod\n") "dev" ["y"])).1
    (.ref (((∅ : AList (fun _ : String => String)).insert "p" "prod").insert "p" "staging"))
    rfl rfl (Or.inr (Or.inl rfl)) rfl rfl
    ⟨"aliases:\n    p: staging\n",
      { Aliases := .ref ((∅ : AList (fun _ : String => String)).insert "p" "staging") },
      rfl, rfl, List.Perm.refl _⟩

/-- C6: for every stored alias map in which the alias is already a key and every answer other
than `y` and `Y` (among them `N` and no input at all), `alias add` completes having printed the
overwrite prompt and `Operation canceled.`; the alias file is not written and `loadAliases`
returns what it returned before. -/
theorem aliasAdd_declined (Y : YamlCodec) (w : World κ ρ) (a ctx target : String)
    (config : AliasConfig) (hload : loadAliases Y w = (config, none))
    (hexists : config.Aliases.lookup a = some target)
    (hresp : w.scanln.1 ≠ "y" ∧ w.scanln.1 ≠ "Y") :
    ∃ w', aliasAddCmd Y a ctx w = some w' ∧
      w'.aliasFile = w.aliasFile ∧
      w'.aliasWrites = w.aliasWrites ∧
      loadAliases Y w' = loadAliases Y w ∧
      w'.stdout = w.stdout ++
        ["Alias '" ++ a ++ "' already exists. Overwrite? [y/N]: ", "Operation canceled.\n"] := by
  have hscan : ∀ s, ((w.print s).scanln).1 = w.scanln.1 := by
    intro s
    simp only [World.scanln, World.print]
    cases w.stdin <;> rfl
  have hcmd : aliasAddCmd Y a ctx w =
      some (((w.print ("Alias '" ++ a ++ "' already exists. Overwrite? [y/N]: ")).scanln).2.print
        "Operation canceled.\n") := by
    unfold aliasAddCmd
    simp only [hload, hexists]
    rw [if_pos (by rw [hscan]; exact hresp)]
  refine ⟨_, hcmd, ?_, ?_, ?_, ?_⟩
  · simp only [World.scanln, World.print]
    cases w.stdin <;> rfl
  · simp only [World.scanln, World.print]
    cases w.stdin <;> rfl
  · apply loadAliases_congr
    simp only [World.scanln, World.print]
    cases w.stdin <;> rfl
  · simp only [World.scanln, World.print]
    cases w.stdin <;> simp

/-- C6 at a concrete state: the alias `prod` exists and the answer is `N`. -/
theorem aliasAdd_declined_witness :
    ∃ w', aliasAddCmd blockYaml "prod" "production-cluster"
        (sampleWorld (.present "aliases:\n    prod: staging\n") "dev" ["N"]) = some w' ∧
      w'.aliasFile = (sampleWorld (.present "aliases:\n    prod: staging\n") "dev" ["N"]).aliasFile ∧
      w'.aliasWrites =
        (sampleWorld (.present "aliases:\n    prod: staging\n") "dev" ["N"]).aliasWrites ∧
      loadAliases blockYaml w' =
        loadAliases blockYaml (sampleWorld (.present "aliases:\n    prod: staging\n") "dev" ["N"]) ∧
      w'.stdout = (sampleWorld (.present "aliases:\n    prod: staging\n") "dev" ["N"]).stdout ++
        ["Alias '" ++ "prod" ++ "' already exists. Overwrite? [y/N]: ", "Operation canceled.\n"] :=
  aliasAdd_declined blockYaml
    (sampleWorld (.present "aliases:\n    prod: staging\n") "dev" ["N"]) "prod"
    "production-cluster" "staging"
    (loadAliases blockYaml (sampleWorld (.present "aliases:\n    prod: staging\n") "dev" ["N"])).1
    rfl rfl (by decide)

/-- C5 (counterexample): the alias file holds the quoted key `"<<"` and the alias `p`, and
loads.  `alias remove p` saves the remaining map and prints `Removed alias: p`; the file then
holds the plain key `<<`, the YAML merge key, so the subsequent `loadAliases` fails and the map
it returns has lost the key `<<`. -/
theorem aliasRemove_merge_key_unloadable :
    (loadAliases blockYaml
        (sampleWorld (.present "aliases:\n    \"<<\": staging\n    p: prod\n") "dev" [])).2 = none ∧
      (loadAliases blockYaml
        (sampleWorld (.present "aliases:\n    \"<<\": staging\n    p: prod\n") "dev"
          [])).1.Aliases.lookup "p" = some "prod" ∧
      (loadAliases blockYaml
        (sampleWorld (.present "aliases:\n    \"<<\": staging\n    p: prod\n") "dev"
          [])).1.Aliases.lookup "<<" = some "staging" ∧
      (aliasRemoveCmd blockYaml "p"
        (sampleWorld (.present "aliases:\n    \"<<\": staging\n    p: prod\n") "dev" [])).stdout =
        ["Removed alias: p\n"] ∧
      (aliasRemoveCmd blockYaml "p"
        (sampleWorld (.present "aliases:\n    \"<<\": staging\n    p: prod\n") "dev"
          [])).aliasFile = .present "aliases:\n    <<: staging\n" ∧
      (loadAliases blockYaml (aliasRemoveCmd blockYaml "p"
        (sampleWorld (.present "aliases:\n    \"<<\": staging\n    p: prod\n") "dev" []))).2 ≠
        none ∧
      (loadAliases blockYaml (aliasRemoveCmd blockYaml "p"
        (sampleWorld (.present "aliases:\n    \"<<\": staging\n    p: prod\n") "dev"
          []))).1.Aliases.lookup "<<" = none := by
  refine ⟨by decide, by decide, by decide, by decide, by decide, by decide, by decide⟩

/-- C5 (amended): for every stored alias map (the map `loadAliases` returns without error) and
every alias name: when the alias is a key, the save succeeds and the YAML library round-trips
the map left after the deletion, after `alias remove` a subsequent `loadAliases` succeeds with a
map that does not contain the alias and agrees with the previous map on every other key; when
the alias is not a key, the command only prints `Error: Alias '...' not found.` and the alias
file is not written. -/
theorem aliasRemove_then_loadAliases (Y : YamlCodec) (w : World κ ρ) (a : String)
    (config : AliasConfig) (hload : loadAliases Y w = (config, none)) :
    ((config.Aliases.lookup a).isSome → w.mkdirErr = none → w.writeErr = none →
        Y.RoundTripsOn { config with Aliases := config.Aliases.delete a } →
        (loadAliases Y (aliasRemoveCmd Y a w)).2 = none ∧
          (loadAliases Y (aliasRemoveCmd Y a w)).1.Aliases.lookup a = none ∧
          (∀ k, k ≠ a →
            (loadAliases Y (aliasRemoveCmd Y a w)).1.Aliases.lookup k = config.Aliases.lookup k) ∧
          (aliasRemoveCmd Y a w).stdout = w.stdout ++ ["Removed alias: " ++ a ++ "\n"]) ∧
      (config.Aliases.lookup a = none →
        aliasRemoveCmd Y a w = w.print ("Error: Alias '" ++ a ++ "' not found.\n") ∧
          (aliasRemoveCmd Y a w).aliasFile = w.aliasFile ∧
          (aliasRemoveCmd Y a w).aliasWrites = w.aliasWrites) := by
  constructor
  · intro hkey hmkdir hwrite hrt
    obtain ⟨target, ht⟩ := Option.isSome_iff_exists.mp hkey
    obtain ⟨data, _, hs, he, hp⟩ := loadAliases_saveAliases Y _ w hrt hmkdir hwrite
    have hcmd : aliasRemoveCmd Y a w =
        (saveAliases Y { config with Aliases := config.Aliases.delete a } w).1.print
          ("Removed alias: " ++ a ++ "\n") := by
      unfold aliasRemoveCmd
      simp only [hload, ht, hs]
    have hl : loadAliases Y (aliasRemoveCmd Y a w) =
        loadAliases Y (saveAliases Y { config with Aliases := config.Aliases.delete a } w).1 := by
      rw [hcmd]
      rfl
    rw [hl]
    refine ⟨he, ?_, ?_, ?_⟩
    · rw [GoMap.lookup_congr hp a]
      exact GoMap.lookup_delete_self _ _
    · intro k hk
      rw [GoMap.lookup_congr hp k]
      exact GoMap.lookup_delete_ne _ hk
    · rw [hcmd, hs]
      rfl
  · intro hnone
    have hcmd : aliasRemoveCmd Y a w = w.print ("Error: Alias '" ++ a ++ "' not found.\n") := by
      unfold aliasRemoveCmd
      simp only [hload, hnone]
    rw [hcmd]
    exact ⟨rfl, rfl, rfl⟩

/-- C5 (amended) at a concrete state: removing the alias `p`, and the missing alias `q`. -/
theorem aliasRemove_then_loadAliases_witness :
    (loadAliases blockYaml (aliasRemoveCmd blockYaml "p"
        (sampleWorld (.present "aliases:\n    p: prod\n    s: staging\n") "dev"
          []))).1.Aliases.lookup "p" = none ∧
      aliasRemoveCmd blockYaml "q"
        (sampleWorld (.present "aliases:\n    p: prod\n    s: staging\n") "dev" []) =
        (sampleWorld (.present "aliases:\n    p: prod\n    s: staging\n") "dev" []).print
          ("Error: Alias '" ++ "q" ++ "' not found.\n") :=
  ⟨((aliasRemove_then_loadAliases blockYaml
      (sampleWorld (.present "aliases:\n    p: prod\n    s: staging\n") "dev" []) "p"
      (loadAliases blockYaml
        (sampleWorld (.present "aliases:\n    p: prod\n    s: staging\n") "dev" [])).1 rfl).1
      (by decide) rfl rfl
      ⟨"aliases:\n    s: staging\n",
        { Aliases := .ref ((∅ : AList (fun _ : String => String)).insert "s" "staging") },
        rfl, rfl, List.Perm.refl _⟩).2.1,
    ((aliasRemove_then_loadAliases blockYaml
      (sampleWorld (.present "aliases:\n    p: prod\n    s: staging\n") "dev" []) "q"
      (loadAliases blockYaml
        (sampleWorld (.present "aliases:\n    p: prod\n    s: staging\n") "dev" [])).1 rfl).2
      (by decide)).1⟩

/-- C7 (counterexample): two states on which `loadAliases` succeeds and `saveAliases` of the
result changes what is on disk.  Without a file, the empty map is loaded and the save creates a
file holding `aliases: {}`.  With a file holding the quoted key `"<<"`, the save rewrites it with
the plain key `<<`, the YAML merge key: the content differs by more than the order of the keys
and `loadAliases` no longer succeeds on it. -/
theorem saveAliases_loadAliases_changes_file :
    ((sampleWorld .absent "dev" []).aliasFile = .absent ∧
      (loadAliases blockYaml (sampleWorld .absent "dev" [])).2 = none ∧
      (loadAliases blockYaml (sampleWorld .absent "dev" [])).1.Aliases.entries = [] ∧
      (saveAliases blockYaml (loadAliases blockYaml (sampleWorld .absent "dev" [])).1
        (sampleWorld .absent "dev" [])).2 = none ∧
      (saveAliases blockYaml (loadAliases blockYaml (sampleWorld .absent "dev" [])).1
        (sampleWorld .absent "dev" [])).1.aliasFile = .present "aliases: {}\n") ∧
    ((loadAliases blockYaml
        (sampleWorld (.present "aliases:\n    \"<<\": staging\n") "dev" [])).2 = none ∧
      (loadAliases blockYaml
        (sampleWorld (.present "aliases:\n    \"<<\": staging\n") "dev"
          [])).1.Aliases.lookup "<<" = some "staging" ∧
      (saveAliases blockYaml
        (loadAliases blockYaml
          (sampleWorld (.present "aliases:\n    \"<<\": staging\n") "dev" [])).1
        (sampleWorld (.present "aliases:\n    \"<<\": staging\n") "dev" [])).2 = none ∧
      (saveAliases blockYaml
        (loadAliases blockYaml
          (sampleWorld (.present "aliases:\n    \"<<\": staging\n") "dev" [])).1
        (sampleWorld (.present "aliases:\n    \"<<\": staging\n") "dev" [])).1.aliasFile =
        .present "aliases:\n    <<: staging\n" ∧
      (loadAliases blockYaml (saveAliases blockYaml
        (loadAliases blockYaml
          (sampleWorld (.present "aliases:\n    \"<<\": staging\n") "dev" [])).1
        (sampleWorld (.present "aliases:\n    \"<<\": staging\n") "dev" [])).1).2 ≠ none ∧
      (loadAliases blockYaml (saveAliases blockYaml
        (loadAliases blockYaml
          (sampleWorld (.present "aliases:\n    \"<<\": staging\n") "dev" [])).1
        (sampleWorld (.present "aliases:\n    \"<<\": staging\n") "dev"
          [])).1).1.Aliases.lookup "<<" = none) := by
  refine ⟨⟨by decide, by decide, by decide, by decide, by decide⟩,
    ⟨by decide, by decide, by decide, by decide, by decide, by decide⟩⟩

/-- C7 (amended): for every state of the alias file on which `loadAliases` succeeds (the state
without a file included) and for which the save succeeds, `saveAliases(loadAliases())` replaces
the on-disk content by the YAML library's serialization of the loaded map.  The content is the
same as before exactly when the file already held that serialization, and the alias map that
`loadAliases` reads afterwards is the loaded map up to the order of the keys exactly when the
library round-trips the loaded map. -/
theorem saveAliases_loadAliases_roundtrip (Y : YamlCodec) (w : World κ ρ) (config : AliasConfig)
    (data : String) (hload : loadAliases Y w = (config, none))
    (hmarshal : Y.Marshal config = .ok data) (hmkdir : w.mkdirErr = none)
    (hwrite : w.writeErr = none) :
    (saveAliases Y (loadAliases Y w).1 w).2 = none ∧
      (saveAliases Y (loadAliases Y w).1 w).1.aliasFile = .present data ∧
      ((saveAliases Y (loadAliases Y w).1 w).1.aliasFile = w.aliasFile ↔
        w.aliasFile = .present data) ∧
      (((loadAliases Y (saveAliases Y (loadAliases Y w).1 w).1).2 = none ∧
          (loadAliases Y (saveAliases Y (loadAliases Y w).1 w).1).1.Aliases.entries.Perm
            (loadAliases Y w).1.Aliases.entries) ↔
        Y.RoundTripsOn config) ∧
      (Y.RoundTripsOn config →
        ∀ k, (loadAliases Y (saveAliases Y (loadAliases Y w).1 w).1).1.Aliases.lookup k =
          (loadAliases Y w).1.Aliases.lookup k) := by
  have hs := saveAliases_ok Y config w data hmarshal hmkdir hwrite
  have hl : loadAliases Y (saveAliases Y config w).1 =
      Y.Unmarshal data { Aliases := GoMap.make } := by
    rw [hs]
    exact loadAliases_present Y _ data rfl
  have hiff : ((Y.Unmarshal data { Aliases := GoMap.make }).2 = none ∧
      (Y.Unmarshal data { Aliases := GoMap.make }).1.Aliases.entries.Perm
        config.Aliases.entries) ↔ Y.RoundTripsOn config := by
    constructor
    · rintro ⟨h₁, h₂⟩
      exact ⟨data, (Y.Unmarshal data { Aliases := GoMap.make }).1, hmarshal,
        Prod.ext rfl h₁, h₂⟩
    · rintro ⟨data', config', hm, hu, hp⟩
      rw [hmarshal] at hm
      obtain rfl : data = data' := Except.ok.inj hm
      rw [hu]
      exact ⟨rfl, hp⟩
  rw [hload]
  simp only [hl]
  refine ⟨?_, ?_, ?_, hiff, ?_⟩
  · rw [hs]
  · rw [hs]
  · rw [hs]
    exact ⟨fun h => h.symm, fun h => h.symm⟩
  · intro hrt k
    exact GoMap.lookup_congr (hiff.mpr hrt).2 k

/-- C7 (amended) at a concrete state: a file holding the serialization of two aliases is left as
it is, and the two aliases are read back. -/
theorem saveAliases_loadAliases_roundtrip_witness :
    (saveAliases blockYaml
        (loadAliases blockYaml
          (sampleWorld (.present "aliases:\n    p: prod\n    s: staging\n") "dev" [])).1
        (sampleWorld (.present "aliases:\n    p: prod\n    s: staging\n") "dev" [])).1.aliasFile =
        (sampleWorld (.present "aliases:\n    p: prod\n    s: staging\n") "dev" []).aliasFile ∧
      ∀ k, (loadAliases blockYaml (saveAliases blockYaml
          (loadAliases blockYaml
            (sampleWorld (.present "aliases:\n    p: prod\n    s: staging\n") "dev" [])).1
          (sampleWorld (.present "aliases:\n    p: prod\n    s: staging\n") "dev"
            [])).1).1.Aliases.lookup k =
        (loadAliases blockYaml
          (sampleWorld (.present "aliases:\n    p: prod\n    s: staging\n") "dev"
            [])).1.Aliases.lookup k :=
  ⟨(saveAliases_loadAliases_roundtrip blockYaml
      (sampleWorld (.present "aliases:\n    p: prod\n    s: staging\n") "dev" [])
      (loadAliases blockYaml
        (sampleWorld (.present "aliases:\n    p: prod\n    s: staging\n") "dev" [])).1
      "aliases:\n    p: prod\n    s: staging\n" rfl rfl rfl rfl).2.2.1.mpr rfl,
    (saveAliases_loadAliases_roundtrip blockYaml
      (sampleWorld (.present "aliases:\n    p: prod\n    s: staging\n") "dev" [])
      (loadAliases blockYaml
        (sampleWorld (.present "aliases:\n    p: prod\n    s: staging\n") "dev" [])).1
      "aliases:\n    p: prod\n    s: staging\n" rfl rfl rfl rfl).2.2.2.2
      ⟨"aliases:\n    p: prod\n    s: staging\n",
        (loadAliases blockYaml
          (sampleWorld (.present "aliases:\n    p: prod\n    s: staging\n") "dev" [])).1,
        rfl, rfl, List.Perm.refl _⟩⟩

end Kubex
